import Mathlib

/-!
Verification of `master_runner_short.py` (TheEMeraldNetwork/Kalimera).

Shallow embedding of the orchestration script: the retrying command runner
(`run_command_with_logging`), the publisher (`copy_to_docs`), the log
housekeeping (`cleanup_old_logs`), and the orchestrator (`main`).

External processes, the filesystem and the clock are modelled as explicit
inputs; exceptions are modelled with `Except`.
-/

namespace Kalimera

/-! ## Command Runner: `run_command_with_logging` (lines 46-95)

The external command's behaviour is abstracted as, for each attempt number
(1-based), either an exit code (the process ran and exited) or some other
exception raised by `subprocess.run` itself (e.g. `FileNotFoundError`). -/

/-- Outcome of one `subprocess.run` call on a given attempt. -/
inductive AttemptOutcome where
  | exitCode (c : Nat)
  | exn
  deriving DecidableEq, Repr

/-- Python exceptions that can arise from the inner try body: with
`check=True`, a nonzero exit raises `subprocess.CalledProcessError`; anything
else raised by `subprocess.run` is some other `Exception`. -/
inductive PyExn where
  | calledProcessError (code : Nat)
  | otherExn
  deriving DecidableEq, Repr

/-- `subprocess.run(command, check=True, ...)` (lines 58-64): returns
normally on exit code 0, raises `CalledProcessError` on a nonzero exit,
propagates any other exception. -/
def subprocessRun (o : AttemptOutcome) : Except PyExn Unit :=
  match o with
  | .exitCode 0 => .ok ()
  | .exitCode c => .error (.calledProcessError c)
  | .exn => .error .otherExn

/-- The inner try/except block (lines 57-72): on success `return True`
(line 65); the inner `except subprocess.CalledProcessError` handler logs and
`return False` (lines 66-72); other exceptions propagate to the outer
handlers. `.ok b` means a `return b` statement executed. -/
def innerTry (o : AttemptOutcome) : Except PyExn Bool :=
  match subprocessRun o with
  | .ok () => .ok true
  | .error (.calledProcessError _) => .ok false
  | .error e => .error e

/-- Python class test for the outer `except subprocess.CalledProcessError`
handler at line 76. -/
def isCalledProcessError : PyExn → Bool
  | .calledProcessError _ => true
  | .otherExn => false

/-- Python class test for the outer `except Exception` handler at line 91:
both modelled exceptions derive from `Exception`. -/
def isExceptionClass : PyExn → Bool
  | _ => true

/-- Observable trace of one call to `run_command_with_logging`: the boolean
returned, the number of `subprocess.run` invocations performed, and the
number of 5-second `time.sleep(5)` calls performed (line 89). -/
structure RunTrace where
  result : Bool
  processRuns : Nat
  sleeps : Nat
  deriving DecidableEq, Repr

/-- The `for attempt in range(1, max_retries + 1)` loop (lines 52-93), with
`attempts` the remaining attempt numbers, having already performed
`processRuns` invocations and `sleeps` sleeps.  An `.error` result would
mean an exception escaped both outer handlers (lines 76 and 91); we prove
below this never happens.  An exhausted list reaches `return False` at
line 95. -/
def runLoopE (behavior : Nat → AttemptOutcome) (maxRetries : Nat)
    (attempts : List Nat) (processRuns sleeps : Nat) : Except PyExn RunTrace :=
  match attempts with
  | [] => .ok ⟨false, processRuns, sleeps⟩
  | a :: rest =>
    match innerTry (behavior a) with
    | .ok b => .ok ⟨b, processRuns + 1, sleeps⟩
    | .error e =>
      if isCalledProcessError e then
        -- lines 76-89: outer CalledProcessError handler
        if a = maxRetries then .ok ⟨false, processRuns + 1, sleeps⟩
        else runLoopE behavior maxRetries rest (processRuns + 1) (sleeps + 1)
      else if isExceptionClass e then
        -- lines 91-93: outer Exception handler, return False
        .ok ⟨false, processRuns + 1, sleeps⟩
      else
        .error e

/-- The loop from its start: `range(1, max_retries + 1)` enumerates the
attempt numbers `1, ..., max_retries`. -/
def runFromE (behavior : Nat → AttemptOutcome) (maxRetries attempt processRuns sleeps : Nat) :
    Except PyExn RunTrace :=
  runLoopE behavior maxRetries (List.range' attempt (maxRetries + 1 - attempt))
    processRuns sleeps

/-- The environment and working directory handed to every `subprocess.run`
call: lines 49-50 build `env` from a copy of the parent environment with
`PYTHONPATH` set to the current working directory, and line 62 passes
`cwd=os.getcwd()`. -/
structure InvocationSpec where
  cwd : String
  env : String → Option String

/-- Lines 49-50: `env = os.environ.copy(); env['PYTHONPATH'] = str(Path.cwd())`. -/
def commandInvocationSpec (parentEnv : String → Option String) (cwd : String) :
    InvocationSpec :=
  { cwd := cwd
    env := fun k => if k = "PYTHONPATH" then some cwd else parentEnv k }

/-- `run_command_with_logging(command, description, logger, max_retries)`:
builds the invocation spec once, then runs the attempt loop from attempt 1. -/
def runCommandWithLogging (parentEnv : String → Option String) (cwd : String)
    (behavior : Nat → AttemptOutcome) (maxRetries : Nat) :
    InvocationSpec × Except PyExn RunTrace :=
  (commandInvocationSpec parentEnv cwd, runFromE behavior maxRetries 1 0 0)

/-- The boolean result of a `run_command_with_logging` call as `main`
observes it.  By `runFromE_never_errors` below the `.error` branch is
unreachable; the `false` there is arbitrary. -/
def runnerBool (behavior : Nat → AttemptOutcome) (maxRetries : Nat) : Bool :=
  match runFromE behavior maxRetries 1 0 0 with
  | .ok t => t.result
  | .error _ => false

/-! ## Publisher: `copy_to_docs` (lines 97-145)

Directories are modelled as lists of file entries.  Each physical file
carries a `stamp`: a token freshly allocated each time a file is written
(`shutil.copy2` creates/overwrites the destination), so that file identity
across `rmtree`/copy is observable.  The `results` directory is read-only
here and modelled as an association list name ↦ content. -/

/-- A physical file in the `docs` directory: name, content, and a creation
stamp distinguishing it from any file written at another moment. -/
structure FileEntry where
  name : String
  content : String
  stamp : Nat
  deriving DecidableEq, Repr

/-- Filesystem state seen by `copy_to_docs`: whether `docs/` exists and its
files, the `results/` directory contents, and the next fresh stamp. -/
structure PubFS where
  docsExists : Bool
  docs : List FileEntry
  results : List (String × String)
  counter : Nat

/-- `shutil.copy2(src, docs_dir / name)`: overwrite any existing file of
that name with a freshly created file holding `content`. -/
def writeFile (docs : List FileEntry) (counter : Nat) (name content : String) :
    List FileEntry × Nat :=
  (docs.filter (fun e => e.name ≠ name) ++ [⟨name, content, counter⟩], counter + 1)

/-- Whether a file name matches the glob `articles_*_latest.html`
(line 135): prefix `articles_`, suffix `_latest.html`, with `*` matching
any (possibly empty) run of characters between them. -/
def matchesArticleGlob (n : String) : Bool :=
  n.startsWith "articles_" && n.endsWith "_latest.html" &&
    decide (21 ≤ n.length)

/-- The loop at lines 135-137: copy every results file matching
`articles_*_latest.html` into `docs`, in directory order. -/
def copyArticles (results : List (String × String)) (docs : List FileEntry)
    (counter : Nat) : List FileEntry × Nat :=
  match results with
  | [] => (docs, counter)
  | (n, c) :: rest =>
    if matchesArticleGlob n then
      let w := writeFile docs counter n c
      copyArticles rest w.1 w.2
    else copyArticles rest docs counter

/-- `results_dir / name` existence and content: first entry of that name. -/
def lookupResult (results : List (String × String)) (name : String) :
    Option String :=
  (results.find? (fun p => p.1 = name)).map (fun p => p.2)

/-- Lines 123-131: if `results/sentiment_report_latest.html` exists, copy it
into `docs` as `index.html` and as `sentiment_report_latest.html`; else only
warn. -/
def copyReport (docs : List FileEntry) (counter : Nat)
    (results : List (String × String)) : List FileEntry × Nat :=
  match lookupResult results "sentiment_report_latest.html" with
  | some c =>
    let w := writeFile docs counter "index.html" c
    writeFile w.1 w.2 "sentiment_report_latest.html" c
  | none => (docs, counter)

/-- `copy_to_docs` (lines 97-145): (1) if `docs/` exists, `shutil.rmtree` it
(lines 115-117); (2) `mkdir` it (line 120); (3) copy the latest report
under both names (lines 123-131); (4) copy every `articles_*_latest.html`
(lines 134-137); return `True` (line 142).  The `except` at lines 143-145
returns `False`; no modelled operation raises, so the pure model always
returns `true`. -/
def copyToDocs (fs : PubFS) : PubFS × Bool :=
  let docs1 : List FileEntry := if fs.docsExists then [] else fs.docs
  let step2 := copyReport docs1 fs.counter fs.results
  let step3 := copyArticles fs.results step2.1 step2.2
  ({ docsExists := true, docs := step3.1, results := fs.results,
     counter := step3.2 }, true)

/-- A physically sensible `PubFS`: a nonexistent `docs/` holds no files, and
every existing file's stamp predates the next fresh stamp. -/
def PubFS.WellFormed (fs : PubFS) : Prop :=
  (fs.docsExists = false → fs.docs = []) ∧ ∀ e ∈ fs.docs, e.stamp < fs.counter

/-- The observable contents of a file: its name and content, forgetting the
creation stamp. -/
def contentView (e : FileEntry) : String × String := (e.name, e.content)

/-- Ghost counterpart of `writeFile` on stamp-free contents. -/
def writeFileP (docs : List (String × String)) (n c : String) :
    List (String × String) :=
  docs.filter (fun p => p.1 ≠ n) ++ [(n, c)]

/-- Ghost counterpart of `copyReport` on stamp-free contents. -/
def copyReportP (docs : List (String × String))
    (results : List (String × String)) : List (String × String) :=
  match lookupResult results "sentiment_report_latest.html" with
  | some c =>
    writeFileP (writeFileP docs "index.html" c) "sentiment_report_latest.html" c
  | none => docs

/-- Ghost counterpart of `copyArticles` on stamp-free contents. -/
def copyArticlesP (results : List (String × String))
    (docs : List (String × String)) : List (String × String) :=
  match results with
  | [] => docs
  | (n, c) :: rest =>
    if matchesArticleGlob n then copyArticlesP rest (writeFileP docs n c)
    else copyArticlesP rest docs

/-! ## Housekeeping: `cleanup_old_logs` (lines 357-384) -/

/-- A file in the `logs/` directory: its name and last-modified time in
seconds (`st_mtime`). -/
structure LogFile where
  name : String
  mtime : Int
  deriving DecidableEq, Repr

/-- Whether a name matches the glob `*.log` (line 378). -/
def matchesLogGlob (n : String) : Bool :=
  n.endsWith ".log"

/-- `cleanup_old_logs` (lines 357-384): no-op when `logs/` is absent
(lines 370-371); otherwise compute `thirty_days_ago = now - 30*24*60*60`
(lines 375-376) and unlink every `*.log` file with
`st_mtime < thirty_days_ago` (lines 378-380).  Returns the surviving
files. -/
def cleanupOldLogs (logsDirExists : Bool) (files : List LogFile) (now : Int) :
    List LogFile :=
  if logsDirExists = false then files
  else files.filter
    (fun f => !(matchesLogGlob f.name && decide (f.mtime < now - 30 * 24 * 60 * 60)))

/-! ## `push_to_github` (lines 147-169)

Defined in the source but, as proved below, never reached from `main`; its
command list is embedded so that unreachability is a statement about real
definitions rather than about an impoverished event type. -/

/-- The git command sequence `push_to_github` would run (lines 154-159). -/
def pushToGithubCommands (timestamp : String) : List (List String) :=
  [["git", "add", "results/*"],
   ["git", "add", "docs/*"],
   ["git", "commit", "-m",
     "Update sentiment analysis and dashboard - " ++ timestamp],
   ["git", "push"]]

/-! ## Orchestrator: `main` (lines 208-355)

The ambient world — which files exist, how each external command behaves on
each retry attempt, how the email step turns out — is a record of inputs.
`main` is modelled as a function from the world to its returned boolean
together with the trace of externally visible steps it performed, in
order. -/

/-- Outcome of the inline email step (lines 313-337): all four cases are
only logged; none changes control flow. -/
inductive EmailOutcome where
  | sentOk
  | sendFailed
  | noSummaryFile
  | exn
  deriving DecidableEq, Repr

/-- An externally visible step taken by `main`.  `callCopyToDocs`,
`callPushToGithub` and `callSendEmailReport` would mark calls to the
like-named module functions; `emailInline` is the inline email step at
lines 311-337, `cleanupLogs` the `cleanup_old_logs` call at line 341. -/
inductive Event where
  | runCommand (cmd : List String)
  | callCopyToDocs
  | callPushToGithub
  | callSendEmailReport
  | emailInline (outcome : EmailOutcome)
  | cleanupLogs
  deriving DecidableEq, Repr

/-- The inputs `main` consults: prerequisite file existence (lines 242-259),
the per-attempt behaviour of each of the five external commands it launches
(lines 265, 276, 290, 295, 304), the email step's outcome, the timestamp
formatted at line 287, the interpreter paths (lines 242-246), and the
`logs/` directory state for cleanup. -/
structure World where
  venvPythonExists : Bool
  venvPythonAbs : String
  sysExecutable : String
  sentimentScriptExists : Bool
  dashboardScriptExists : Bool
  collect : Nat → AttemptOutcome
  generate : Nat → AttemptOutcome
  gitAdd : Nat → AttemptOutcome
  gitCommit : Nat → AttemptOutcome
  gitPush : Nat → AttemptOutcome
  email : EmailOutcome
  timestamp : String
  logsDirExists : Bool
  logs : List LogFile
  logsNow : Int

/-- Lines 242-246: prefer `venv/bin/python` when present, else
`sys.executable`. -/
def pythonPath (w : World) : String :=
  if w.venvPythonExists then w.venvPythonAbs else w.sysExecutable

/-- Line 296: the commit message `'📊 Daily dashboard update - {timestamp}'`. -/
def commitMessage (timestamp : String) : String :=
  "📊 Daily dashboard update - " ++ timestamp

/-- `main` (lines 208-355).  Returns the boolean result and the ordered
trace of steps.  Control flow: missing script → `return False`
(lines 253-259); failed collect → `return False` (lines 265-271); failed
generate → `return False` (lines 276-282); failed `git add index.html` →
`return False` (lines 290-292); commit failure only warned (lines 295-301);
push failure only warned (lines 304-306); email step outcome only logged
(lines 311-337); cleanup (line 341); `return True` (line 355). -/
def mainRun (w : World) : Bool × List Event :=
  if w.sentimentScriptExists = false then (false, [])
  else if w.dashboardScriptExists = false then (false, [])
  else
    let collectCmd := Event.runCommand [pythonPath w, "sent_collect_data.py"]
    if runnerBool w.collect 3 = false then (false, [collectCmd])
    else
      let generateCmd := Event.runCommand [pythonPath w, "viz_dashboard_generator.py"]
      if runnerBool w.generate 3 = false then (false, [collectCmd, generateCmd])
      else
        let addCmd := Event.runCommand ["git", "add", "index.html"]
        if runnerBool w.gitAdd 2 = false then
          (false, [collectCmd, generateCmd, addCmd])
        else
          let commitCmd := Event.runCommand
            ["git", "commit", "-m", commitMessage w.timestamp]
          let pushCmd := Event.runCommand ["git", "push", "origin", "gh-pages"]
          (true, [collectCmd, generateCmd, addCmd, commitCmd, pushCmd,
                  Event.emailInline w.email, Event.cleanupLogs])

/-- Marks the three module functions `main` never calls. -/
def isDeadPublishEvent : Event → Bool
  | .callCopyToDocs => true
  | .callPushToGithub => true
  | .callSendEmailReport => true
  | _ => false

/-- An event that stages files (a command starting `git add`). -/
def isGitAdd : Event → Bool
  | .runCommand cmd => decide (cmd.take 2 = ["git", "add"])
  | _ => false

/-- An event that pushes (a command starting `git push`). -/
def isGitPush : Event → Bool
  | .runCommand cmd => decide (cmd.take 2 = ["git", "push"])
  | _ => false

/-- The full trace of a run in which no fatal step fails. -/
def fullTrace (w : World) : List Event :=
  [.runCommand [pythonPath w, "sent_collect_data.py"],
   .runCommand [pythonPath w, "viz_dashboard_generator.py"],
   .runCommand ["git", "add", "index.html"],
   .runCommand ["git", "commit", "-m", commitMessage w.timestamp],
   .runCommand ["git", "push", "origin", "gh-pages"],
   .emailInline w.email, .cleanupLogs]

/-! ## Concrete inputs used to instantiate the theorems below -/

/-- A command that exits 1 on attempt 1 and would exit 0 on every later
attempt. -/
def failThenSucceed : Nat → AttemptOutcome :=
  fun n => if n = 1 then .exitCode 1 else .exitCode 0

/-- A command whose launch raises a non-`CalledProcessError` exception. -/
def exnAlways : Nat → AttemptOutcome := fun _ => .exn

/-- A command that always exits 0. -/
def okAlways : Nat → AttemptOutcome := fun _ => .exitCode 0

/-- A command that always exits 1. -/
def failAlways : Nat → AttemptOutcome := fun _ => .exitCode 1

/-- A sample parent environment. -/
def sampleEnv : String → Option String :=
  fun k => if k = "PATH" then some "/usr/bin" else none

/-- A world in which every prerequisite holds and every external step
succeeds. -/
def wAllOk : World :=
  { venvPythonExists := true
    venvPythonAbs := "/project/venv/bin/python"
    sysExecutable := "/usr/bin/python3"
    sentimentScriptExists := true
    dashboardScriptExists := true
    collect := okAlways
    generate := okAlways
    gitAdd := okAlways
    gitCommit := okAlways
    gitPush := okAlways
    email := .sentOk
    timestamp := "2026-10-12 06:00:00"
    logsDirExists := true
    logs := []
    logsNow := 0 }

/-- A world identical to `wAllOk` except that `git add index.html` fails on
every attempt. -/
def wGitAddFails : World := { wAllOk with gitAdd := failAlways }

/-- A world identical to `wAllOk` except that the sentiment-collection
script is missing. -/
def wNoScript : World := { wAllOk with sentimentScriptExists := false }

/-- A world identical to `wAllOk` except that `git push origin gh-pages`
fails on every attempt. -/
def wPushFails : World := { wAllOk with gitPush := failAlways }

/-- A sample publisher filesystem: `docs/` holds two previously published
files, `results/` holds a latest report and one article page. -/
def samplePubFS : PubFS :=
  { docsExists := true
    docs := [⟨"index.html", "old dashboard", 0⟩, ⟨"sentinel.txt", "sentinel", 1⟩]
    results := [("sentiment_report_latest.html", "new dashboard"),
                ("articles_AAPL_latest.html", "aapl articles"),
                ("notes.txt", "not copied")]
    counter := 2 }

/-- Sample log files around the 30-day boundary for `now = 10^9`:
one stale `.log` file, one exactly at the boundary, one fresh, and one
stale non-log file. -/
def sampleLogs : List LogFile :=
  [⟨"old.log", 1000000000 - 2592000 - 1⟩,
   ⟨"boundary.log", 1000000000 - 2592000⟩,
   ⟨"fresh.log", 999999999⟩,
   ⟨"old.txt", 0⟩]

/-! ## Helper lemmas -/

/-- Every exception escaping the inner try/except is `.otherExn`: the inner
handler at lines 66-72 already catches `CalledProcessError`. -/
theorem innerTry_error_eq {o : AttemptOutcome} {e : PyExn}
    (h : innerTry o = .error e) : e = .otherExn := by
  cases o with
  | exitCode c =>
    cases c with
    | zero => simp [innerTry, subprocessRun] at h
    | succ n => simp [innerTry, subprocessRun] at h
  | exn => simpa [innerTry, subprocessRun] using h.symm

/-- One iteration of the attempt loop always returns: true on exit code 0,
false otherwise.  In particular the retry branch (lines 76-89) is dead
code — the inner handler returns `False` before it can fire. -/
theorem runLoopE_cons_eq (b : Nat → AttemptOutcome) (m a : Nat)
    (rest : List Nat) (pr s : Nat) :
    runLoopE b m (a :: rest) pr s
      = .ok ⟨decide (b a = .exitCode 0), pr + 1, s⟩ := by
  cases hba : b a with
  | exitCode c =>
    cases c with
    | zero => simp [runLoopE, innerTry, subprocessRun, hba]
    | succ n => simp [runLoopE, innerTry, subprocessRun, hba]
  | exn =>
    simp [runLoopE, innerTry, subprocessRun, hba, isCalledProcessError,
      isExceptionClass]

/-- The attempt loop never lets an exception escape. -/
theorem runLoopE_ok (b : Nat → AttemptOutcome) (m : Nat) (attempts : List Nat)
    (pr s : Nat) : ∃ t, runLoopE b m attempts pr s = .ok t := by
  cases attempts with
  | nil => exact ⟨⟨false, pr, s⟩, rfl⟩
  | cons a rest => exact ⟨_, runLoopE_cons_eq b m a rest pr s⟩

/-- With at least one attempt allowed, the whole call is decided by the
first attempt alone: one process run, no sleep. -/
theorem runFromE_first_attempt (b : Nat → AttemptOutcome) (m : Nat)
    (hm : 1 ≤ m) :
    runFromE b m 1 0 0 = .ok ⟨decide (b 1 = .exitCode 0), 1, 0⟩ := by
  obtain ⟨k, rfl⟩ := Nat.exists_eq_add_of_le hm
  have hr : List.range' 1 (1 + k + 1 - 1) = 1 :: List.range' 2 k := by
    rw [show 1 + k + 1 - 1 = k + 1 by omega, List.range'_succ]
  rw [runFromE, hr, runLoopE_cons_eq]

/-! ## Claim theorems -/

/-- C1 (code bug witness): with `max_retries = 2` and a command that fails
on attempt 1 but would succeed on attempt 2, `run_command_with_logging`
returns `False` after a single process invocation and zero sleeps — the
claimed retry (at most `k` invocations with 5-second delays, returning true
on the first zero exit and false only after all `k` fail) never happens,
because the inner `except` at lines 66-72 returns `False` before the retry
logic at lines 76-89 can run. -/
theorem run_command_no_retry_after_failure :
    (runCommandWithLogging (fun _ => none) "/project" failThenSucceed 2).2
        = .ok ⟨false, 1, 0⟩ ∧
      failThenSucceed 1 = .exitCode 1 ∧ failThenSucceed 2 = .exitCode 0 := by
  refine ⟨?_, rfl, rfl⟩
  rfl

/-- C3: the Command Runner never propagates an exception: for every
environment, working directory, command behaviour and attempt count its
result is a normal `.ok` return; and when the first attempt raises an
unexpected (non-`CalledProcessError`) exception the call returns `False`
immediately, after exactly one process invocation and with no further
retries or sleeps. -/
theorem run_command_no_exception_escape
    (parentEnv : String → Option String) (cwd : String)
    (behavior : Nat → AttemptOutcome) (maxRetries : Nat) :
    (∃ t, (runCommandWithLogging parentEnv cwd behavior maxRetries).2 = .ok t) ∧
      (behavior 1 = .exn → 1 ≤ maxRetries →
        (runCommandWithLogging parentEnv cwd behavior maxRetries).2
          = .ok ⟨false, 1, 0⟩) := by
  constructor
  · exact runLoopE_ok behavior maxRetries _ 0 0
  · intro hb hm
    show runFromE behavior maxRetries 1 0 0 = _
    rw [runFromE_first_attempt behavior maxRetries hm, hb]
    rfl

/-- C3 witness: a command raising an unexpected exception on attempt 1, with
the default `max_retries = 3`. -/
theorem run_command_no_exception_escape_witness :
    exnAlways 1 = .exn ∧ 1 ≤ 3 ∧
      (runCommandWithLogging (fun _ => none) "/project" exnAlways 3).2
        = .ok ⟨false, 1, 0⟩ :=
  ⟨rfl, by decide,
    (run_command_no_exception_escape (fun _ => none) "/project" exnAlways 3).2
      rfl (by decide)⟩

/-- C9: every invocation runs in the current working directory, with the
child environment equal to the parent environment except that `PYTHONPATH`
is set to the project root (the current working directory); every other
variable is unchanged. -/
theorem run_command_invocation_env
    (parentEnv : String → Option String) (cwd : String)
    (behavior : Nat → AttemptOutcome) (maxRetries : Nat) :
    (runCommandWithLogging parentEnv cwd behavior maxRetries).1.cwd = cwd ∧
      (runCommandWithLogging parentEnv cwd behavior maxRetries).1.env
        "PYTHONPATH" = some cwd ∧
      ∀ key, key ≠ "PYTHONPATH" →
        (runCommandWithLogging parentEnv cwd behavior maxRetries).1.env key
          = parentEnv key := by
  refine ⟨rfl, by simp [runCommandWithLogging, commandInvocationSpec], ?_⟩
  intro key hk
  simp [runCommandWithLogging, commandInvocationSpec, hk]

/-- C9 witness: a concrete parent environment and working directory; the
`PATH` variable passes through unchanged while `PYTHONPATH` is the working
directory. -/
theorem run_command_invocation_env_witness :
    "PATH" ≠ "PYTHONPATH" ∧
      (runCommandWithLogging sampleEnv "/project" okAlways 3).1.env "PATH"
        = sampleEnv "PATH" :=
  ⟨by decide,
    (run_command_invocation_env sampleEnv "/project" okAlways 3).2.2 "PATH"
      (by decide)⟩

/-- Every event of any `main` trace occurs in the full-run trace. -/
theorem mainRun_trace_mem (w : World) (e : Event) (he : e ∈ (mainRun w).2) :
    e ∈ fullTrace w := by
  revert he
  unfold mainRun fullTrace
  split_ifs <;> intro he <;> simp at he ⊢ <;> tauto

/-- C2 counterexample: in a world where both scripts exist and the Collect
and Generate steps succeed but `git add index.html` fails, `main` returns
`False` — contradicting the claim that every path outside the prerequisite
check, Collect and Generate returns `True`. -/
theorem main_false_on_gitadd_failure_cex :
    wGitAddFails.sentimentScriptExists = true ∧
      wGitAddFails.dashboardScriptExists = true ∧
      runnerBool wGitAddFails.collect 3 = true ∧
      runnerBool wGitAddFails.generate 3 = true ∧
      (mainRun wGitAddFails).1 = false := by
  refine ⟨rfl, rfl, by decide, by decide, ?_⟩
  rfl

/-- C2 amended: `main` returns `False` exactly when the prerequisite check,
the Collect step, the Generate step, or the `git add index.html` staging
step fails; on every other path — failed commit, failed push, failed email
send, failed cleanup — it returns `True`. -/
theorem main_false_iff_fatal_step_fails (w : World) :
    (mainRun w).1 = false ↔
      (w.sentimentScriptExists = false ∨ w.dashboardScriptExists = false ∨
        runnerBool w.collect 3 = false ∨ runnerBool w.generate 3 = false ∨
        runnerBool w.gitAdd 2 = false) := by
  unfold mainRun
  split_ifs <;> simp_all

/-- C6: when either required script is absent, `main` returns `False` with
an empty step trace — no command is run, no git operation, no email, no
cleanup. -/
theorem main_aborts_on_missing_script (w : World)
    (h : w.sentimentScriptExists = false ∨ w.dashboardScriptExists = false) :
    mainRun w = (false, []) := by
  rcases h with h | h
  · simp [mainRun, h]
  · cases h1 : w.sentimentScriptExists with
    | false => simp [mainRun, h1]
    | true => simp [mainRun, h1, h]

/-- C6 witness: the collection script is missing. -/
theorem main_aborts_on_missing_script_witness :
    (wNoScript.sentimentScriptExists = false ∨
        wNoScript.dashboardScriptExists = false) ∧
      mainRun wNoScript = (false, []) :=
  ⟨Or.inl rfl, main_aborts_on_missing_script wNoScript (Or.inl rfl)⟩

/-- C7: when the prerequisite check, Collect, Generate and the staging step
succeed but the push fails, `main` still returns `True` and the trace runs
through the remaining steps: the push command itself, the email step and
the cleanup all occur. -/
theorem main_true_on_push_failure (w : World)
    (h1 : w.sentimentScriptExists = true) (h2 : w.dashboardScriptExists = true)
    (h3 : runnerBool w.collect 3 = true) (h4 : runnerBool w.generate 3 = true)
    (h5 : runnerBool w.gitAdd 2 = true)
    (_hp : runnerBool w.gitPush 1 = false) :
    (mainRun w).1 = true ∧
      Event.runCommand ["git", "push", "origin", "gh-pages"] ∈ (mainRun w).2 ∧
      Event.emailInline w.email ∈ (mainRun w).2 ∧
      Event.cleanupLogs ∈ (mainRun w).2 := by
  simp [mainRun, h1, h2, h3, h4, h5]

/-- C7 witness: a world whose only failure is the push step. -/
theorem main_true_on_push_failure_witness :
    runnerBool wPushFails.gitPush 1 = false ∧
      (mainRun wPushFails).1 = true :=
  ⟨by decide,
    (main_true_on_push_failure wPushFails rfl rfl (by decide) (by decide)
      (by decide) (by decide)).1⟩

/-- C10: no execution of `main` ever calls `copy_to_docs`, `push_to_github`
or `send_email_report`; moreover every staging command in the trace is
exactly `git add index.html` and every push command is exactly
`git push origin gh-pages` — the `results/*`-plus-`docs/*` publish path of
`push_to_github` is unreachable from the entry point. -/
theorem main_never_calls_dead_publishers (w : World) (e : Event)
    (he : e ∈ (mainRun w).2) :
    isDeadPublishEvent e = false ∧
      (isGitAdd e = true → e = .runCommand ["git", "add", "index.html"]) ∧
      (isGitPush e = true →
        e = .runCommand ["git", "push", "origin", "gh-pages"]) := by
  have hm := mainRun_trace_mem w e he
  simp only [fullTrace, List.mem_cons, List.not_mem_nil, or_false] at hm
  rcases hm with rfl | rfl | rfl | rfl | rfl | rfl | rfl <;>
    exact ⟨rfl, by simp [isGitAdd, isGitPush], by simp [isGitAdd, isGitPush]⟩

/-- C10 witness: in the all-success world, the staging event in the trace
is exactly `git add index.html`. -/
theorem main_never_calls_dead_publishers_witness :
    (Event.runCommand ["git", "add", "index.html"] ∈ (mainRun wAllOk).2) ∧
      isDeadPublishEvent (Event.runCommand ["git", "add", "index.html"])
        = false :=
  ⟨by decide,
    (main_never_calls_dead_publishers wAllOk
      (Event.runCommand ["git", "add", "index.html"]) (by decide)).1⟩

/-- Writing a file preserves a lower bound on all stamps and on the
counter, provided the bound also holds for the fresh stamp. -/
theorem writeFile_stamp_lb {c0 : Nat} {docs : List FileEntry} {k : Nat}
    (hd : ∀ e ∈ docs, c0 ≤ e.stamp) (hk : c0 ≤ k) (n c : String) :
    (∀ e ∈ (writeFile docs k n c).1, c0 ≤ e.stamp) ∧
      c0 ≤ (writeFile docs k n c).2 := by
  constructor
  · intro e he
    simp only [writeFile, List.mem_append, List.mem_filter,
      List.mem_singleton] at he
    rcases he with ⟨he, _⟩ | rfl
    · exact hd e he
    · exact hk
  · simp only [writeFile]
    omega

/-- The report-copy step preserves a stamp lower bound. -/
theorem copyReport_stamp_lb {c0 : Nat} {docs : List FileEntry} {k : Nat}
    (hd : ∀ e ∈ docs, c0 ≤ e.stamp) (hk : c0 ≤ k)
    (results : List (String × String)) :
    (∀ e ∈ (copyReport docs k results).1, c0 ≤ e.stamp) ∧
      c0 ≤ (copyReport docs k results).2 := by
  unfold copyReport
  cases lookupResult results "sentiment_report_latest.html" with
  | none => exact ⟨hd, hk⟩
  | some c =>
    have h1 := writeFile_stamp_lb hd hk "index.html" c
    exact writeFile_stamp_lb h1.1 h1.2 "sentiment_report_latest.html" c

/-- The article-copy loop preserves a stamp lower bound. -/
theorem copyArticles_stamp_lb {c0 : Nat} (results : List (String × String))
    {docs : List FileEntry} {k : Nat}
    (hd : ∀ e ∈ docs, c0 ≤ e.stamp) (hk : c0 ≤ k) :
    ∀ e ∈ (copyArticles results docs k).1, c0 ≤ e.stamp := by
  induction results generalizing docs k with
  | nil => simpa [copyArticles] using hd
  | cons p rest ih =>
    obtain ⟨n, c⟩ := p
    by_cases h : matchesArticleGlob n = true
    · simp only [copyArticles, h, if_true]
      exact ih (writeFile_stamp_lb hd hk n c).1 (writeFile_stamp_lb hd hk n c).2
    · simp only [copyArticles, h, if_false]
      exact ih hd hk

/-- C4: after a successful run of the Publisher, no file that existed in
the publish directory beforehand survives: the directory is removed
recursively and recreated before any copying, so every surviving file is a
freshly written copy. -/
theorem copy_to_docs_discards_prior (fs : PubFS) (hwf : fs.WellFormed)
    (e : FileEntry) (he : e ∈ fs.docs) (_hok : (copyToDocs fs).2 = true) :
    e ∉ (copyToDocs fs).1.docs ∧ (copyToDocs fs).1.docsExists = true := by
  obtain ⟨hempty, hstamp⟩ := hwf
  refine ⟨?_, rfl⟩
  intro hmem
  have hdocs1 : (if fs.docsExists then ([] : List FileEntry) else fs.docs)
      = [] := by
    cases hex : fs.docsExists
    · simp [hempty hex]
    · simp
  have hrep := @copyReport_stamp_lb fs.counter ([] : List FileEntry)
    fs.counter (by simp) le_rfl fs.results
  have harts := copyArticles_stamp_lb fs.results hrep.1 hrep.2
  have hdocs : (copyToDocs fs).1.docs
      = (copyArticles fs.results
          (copyReport [] fs.counter fs.results).1
          (copyReport [] fs.counter fs.results).2).1 := by
    simp only [copyToDocs, hdocs1]
  have hle : fs.counter ≤ e.stamp := harts e (hdocs ▸ hmem)
  have hlt : e.stamp < fs.counter := hstamp e he
  omega

/-- C4 witness: a sentinel file placed in the publish directory does not
survive a run. -/
theorem copy_to_docs_discards_prior_witness :
    samplePubFS.WellFormed ∧
      (⟨"sentinel.txt", "sentinel", 1⟩ : FileEntry) ∈ samplePubFS.docs ∧
      (copyToDocs samplePubFS).2 = true ∧
      (⟨"sentinel.txt", "sentinel", 1⟩ : FileEntry)
        ∉ (copyToDocs samplePubFS).1.docs :=
  ⟨⟨by decide, by decide⟩, by decide, rfl,
    (copy_to_docs_discards_prior samplePubFS ⟨by decide, by decide⟩
      ⟨"sentinel.txt", "sentinel", 1⟩ (by decide) rfl).1⟩

/-- Filtering by name commutes with forgetting stamps. -/
theorem map_contentView_filter (docs : List FileEntry) (n : String) :
    (docs.filter (fun e => e.name ≠ n)).map contentView
      = (docs.map contentView).filter (fun p => p.1 ≠ n) := by
  rw [List.filter_map]
  rfl

/-- `writeFile` refines its ghost counterpart. -/
theorem map_contentView_writeFile (docs : List FileEntry) (k : Nat)
    (n c : String) :
    ((writeFile docs k n c).1).map contentView
      = writeFileP (docs.map contentView) n c := by
  unfold writeFile writeFileP
  rw [List.map_append, map_contentView_filter]
  rfl

/-- `copyReport` refines its ghost counterpart. -/
theorem map_contentView_copyReport (docs : List FileEntry) (k : Nat)
    (results : List (String × String)) :
    ((copyReport docs k results).1).map contentView
      = copyReportP (docs.map contentView) results := by
  unfold copyReport copyReportP
  cases lookupResult results "sentiment_report_latest.html" with
  | none => rfl
  | some c => simp [map_contentView_writeFile]

/-- `copyArticles` refines its ghost counterpart. -/
theorem map_contentView_copyArticles (results : List (String × String))
    (docs : List FileEntry) (k : Nat) :
    ((copyArticles results docs k).1).map contentView
      = copyArticlesP results (docs.map contentView) := by
  induction results generalizing docs k with
  | nil => rfl
  | cons p rest ih =>
    obtain ⟨n, c⟩ := p
    by_cases h : matchesArticleGlob n = true
    · simp only [copyArticles, copyArticlesP, h, if_true]
      rw [ih, map_contentView_writeFile]
    · simp only [copyArticles, copyArticlesP, h, if_false]
      exact ih _ _

/-- After one run, the publish directory's stamp-free contents are a
function of the results directory alone. -/
theorem copyToDocs_contentView (fs : PubFS)
    (h : fs.docsExists = false → fs.docs = []) :
    ((copyToDocs fs).1.docs).map contentView
      = copyArticlesP fs.results (copyReportP [] fs.results) := by
  have hdocs1 : (if fs.docsExists then ([] : List FileEntry) else fs.docs)
      = [] := by
    cases hex : fs.docsExists
    · simp [h hex]
    · simp
  simp only [copyToDocs, hdocs1]
  rw [map_contentView_copyArticles, map_contentView_copyReport]
  rfl

/-- C8: the Publisher is idempotent: for a fixed results directory, running
it twice in succession leaves the publish directory with exactly the same
file names and contents as a single run. -/
theorem copy_to_docs_idempotent (fs : PubFS)
    (h : fs.docsExists = false → fs.docs = []) :
    ((copyToDocs (copyToDocs fs).1).1.docs).map contentView
      = ((copyToDocs fs).1.docs).map contentView := by
  have hres : (copyToDocs fs).1.results = fs.results := rfl
  rw [copyToDocs_contentView fs h,
    copyToDocs_contentView (copyToDocs fs).1
      (fun hfalse => absurd hfalse (by simp [copyToDocs])), hres]

/-- C8 witness: running the Publisher twice on the sample filesystem equals
a single run in names and contents. -/
theorem copy_to_docs_idempotent_witness :
    (samplePubFS.docsExists = false → samplePubFS.docs = []) ∧
      ((copyToDocs (copyToDocs samplePubFS).1).1.docs).map contentView
        = ((copyToDocs samplePubFS).1.docs).map contentView :=
  ⟨by decide, copy_to_docs_idempotent samplePubFS (by decide)⟩

/-- C5: Housekeeping retains a file of the log directory exactly when its
name does not match `*.log` or its modification time is at least
`now - 30 * 24 * 60 * 60`; in particular a `.log` file exactly at the
boundary is retained, and only strictly older `.log` files are deleted. -/
theorem cleanup_old_logs_exact (files : List LogFile) (now : Int)
    (f : LogFile) (hf : f ∈ files) :
    (f ∈ cleanupOldLogs true files now ↔
        ¬(matchesLogGlob f.name = true ∧ f.mtime < now - 30 * 24 * 60 * 60)) ∧
      (f.mtime = now - 30 * 24 * 60 * 60 → f ∈ cleanupOldLogs true files now) := by
  have hmem : f ∈ cleanupOldLogs true files now ↔
      ¬(matchesLogGlob f.name = true ∧ f.mtime < now - 30 * 24 * 60 * 60) := by
    cases hg : matchesLogGlob f.name <;>
      simp [cleanupOldLogs, List.mem_filter, hf, hg]
  refine ⟨hmem, fun hb => hmem.2 ?_⟩
  rintro ⟨-, hlt⟩
  omega

/-- C5 witness: with `now = 10^9`, the `.log` file whose modification time
is exactly at the 30-day boundary is retained. -/
theorem cleanup_old_logs_exact_witness :
    (⟨"boundary.log", 1000000000 - 2592000⟩ : LogFile) ∈ sampleLogs ∧
      (⟨"boundary.log", 1000000000 - 2592000⟩ : LogFile)
        ∈ cleanupOldLogs true sampleLogs 1000000000 :=
  ⟨by decide,
    (cleanup_old_logs_exact sampleLogs 1000000000
      ⟨"boundary.log", 1000000000 - 2592000⟩ (by decide)).2 (by decide)⟩

end Kalimera
